import Mathlib

/-!
Shallow embedding of `tower-reqwest`'s reqwest adapter
(`src/tower-reqwest/src/adapters/reqwest.rs`): the `Service` implementation of
`HttpClientService<S>` (its `poll_ready` and `call`), the two-variant future
`ExecuteRequestFuture` with its `Inner` enum, its constructor `new` and its
`Future::poll` implementation, and the body conversion
`body.map_err(BoxError::from).boxed()` performed inside `call`.

External collaborators are kept abstract: the inner tower service `S` is a
function from native requests to futures, `reqwest::Request::try_from` is an
arbitrary fallible translation `tryFrom`, and the `From` conversions into
`crate::Error` and `http::Response<reqwest::Body>` are arbitrary functions
`convE`, `errFrom`, `respFrom`.  Inner futures are polled through an abstract
step function `pollF : F → Poll × F` returning the poll outcome together with
the advanced future state.  The invocation of the inner executor inside `call`
is observed through an explicit trace (the list of native requests handed to
the inner service), mirroring the counting-stub discipline of the spec.
-/

namespace TowerReqwest

/-- Rust's `std::task::Poll`: a poll either yields a value or is pending. -/
inductive Poll (α : Type) where
  | ready (value : α)
  | pending
deriving Repr, DecidableEq

/-- A chunk of body data (`hyper::body::Bytes`), modelled as a list of bytes. -/
def Chunk : Type := List Nat

instance : DecidableEq Chunk := by
  unfold Chunk
  infer_instance

/-- A pull-based streaming body (`hyper::body::Body`): the i-th pull yields
either a data chunk or a stream-level error; `none` is end-of-stream. -/
def BodyStream (ε : Type) : Type := Nat → Option (Except ε Chunk)

/-- `Box<dyn std::error::Error + Send + Sync>`: a type-erased boxed error
(the `BoxError` alias of the source file), modelled as a tagged wrapper. -/
inductive BoxError (ε : Type) where
  | box (e : ε)
deriving Repr, DecidableEq

/-- `Except.mapError` as used for `Body::map_err`: apply `f` to the error of a
pull result, leaving data chunks untouched. -/
def mapPullError (f : ε → ε₂) : Except ε Chunk → Except ε₂ Chunk
  | .ok c => .ok c
  | .error e => .error (f e)

/-- The body conversion of `call` (line 41 of the source):
`body.map_err(BoxError::from).boxed()`.  Each pull of the converted stream is
the corresponding pull of the original stream with its error boxed; no pull is
performed by the conversion itself. -/
def convertBody (b : BodyStream ε) : BodyStream (BoxError ε) :=
  fun i => (b i).map (mapPullError BoxError.box)

/-- `http::Request<B>`: method, URI, headers and a body of type `B`. -/
structure Request (B : Type) where
  method : String
  uri : String
  headers : List (String × String)
  body : B

/-- `http::Request::map`: transform the body, keeping the head parts. -/
def Request.map (f : B → B₂) (r : Request B) : Request B₂ :=
  { method := r.method, uri := r.uri, headers := r.headers, body := f r.body }

/-- `HttpClientService<S>`: the adapter, a wrapper holding the inner service
(`self.0` in the source). -/
structure HttpClientService (S : Type) where
  inner : S

/-- The `Inner` enum of `ExecuteRequestFuture`: either the inner service's
in-flight future, or a stored translation error behind an `Option` that is
taken on first poll. -/
inductive Inner (F E : Type) where
  | future (fut : F)
  | error (error : Option E)
deriving Repr, DecidableEq

/-- `ExecuteRequestFuture<S>`: the future returned by `call`, holding an
`Inner`. -/
structure ExecuteRequestFuture (F E : Type) where
  inner : Inner F E
deriving Repr, DecidableEq

/-- `ExecuteRequestFuture::new`: wrap the translation result, storing
`Some(error.into())` on failure (`convE` models `crate::Error::from` for
`reqwest::Error`). -/
def ExecuteRequestFuture.new (convE : RE → E) :
    Except RE F → ExecuteRequestFuture F E
  | .ok fut => ⟨.future fut⟩
  | .error error => ⟨.error (some (convE error))⟩

/-- `poll_ready` of the adapter (lines 33–38): always `Poll::Ready(Ok(()))`,
ignoring both the adapter state and the task context. -/
def HttpClientService.poll_ready (_svc : HttpClientService S) :
    Poll (Except E Unit) :=
  .ready (.ok ())

/-- `call` of the adapter (lines 40–45): convert the body, attempt
`reqwest::Request::try_from`, on success invoke the inner service with the
translated request, and wrap the outcome with `ExecuteRequestFuture::new`.
The second component is the trace of native requests handed to the inner
service during this call (the counting stub of the spec). -/
def HttpClientService.call (convE : RE → E)
    (tryFrom : Request (BodyStream (BoxError ε)) → Except RE NReq)
    (svc : HttpClientService (NReq → F)) (req : Request (BodyStream ε)) :
    ExecuteRequestFuture F E × List NReq :=
  let req₂ := Request.map convertBody req
  match tryFrom req₂ with
  | .ok reqw => (ExecuteRequestFuture.new convE (.ok (svc.inner reqw)), [reqw])
  | .error e => (ExecuteRequestFuture.new convE (.error e), [])

instance [DecidableEq ε] [DecidableEq α] : DecidableEq (Except ε α) := fun a b =>
  match a, b with
  | .ok x, .ok y =>
    if h : x = y then .isTrue (by rw [h]) else .isFalse (by simp [h])
  | .ok _, .error _ => .isFalse (by simp)
  | .error _, .ok _ => .isFalse (by simp)
  | .error x, .error y =>
    if h : x = y then .isTrue (by rw [h]) else .isFalse (by simp [h])

/-- Outcome of one poll of an `ExecuteRequestFuture`: pending with the updated
future, ready with the resolved value and the updated future, or the
defensive fault of `expect("Polled after ready")`. -/
inductive PollStep (F E R : Type) where
  | pending (next : ExecuteRequestFuture F E)
  | ready (out : Except E R) (next : ExecuteRequestFuture F E)
  | panicked
deriving Repr, DecidableEq

/-- The next state of a poll step, if the poll did not fault. -/
def PollStep.next? : PollStep F E R → Option (ExecuteRequestFuture F E)
  | .pending n => some n
  | .ready _ n => some n
  | .panicked => none

/-- `Future::poll` of `ExecuteRequestFuture` (lines 94–108).  In the `Future`
variant the inner future is polled (`pollF` returns the outcome and the
advanced inner-future state) and the outcome is mapped through
`map_ok(From::from).map_err(crate::Error::from)` (`respFrom`, `errFrom`).  In
the `Error` variant the stored error is taken; if it was already taken the
`expect("Polled after ready")` fault fires. -/
def ExecuteRequestFuture.poll (pollF : F → Poll (Except SE SR) × F)
    (respFrom : SR → R) (errFrom : SE → E) :
    ExecuteRequestFuture F E → PollStep F E R
  | ⟨.future fut⟩ =>
    match pollF fut with
    | (.pending, fut₂) => .pending ⟨.future fut₂⟩
    | (.ready (.ok r), fut₂) => .ready (.ok (respFrom r)) ⟨.future fut₂⟩
    | (.ready (.error e), fut₂) => .ready (.error (errFrom e)) ⟨.future fut₂⟩
  | ⟨.error o⟩ =>
    match o with
    | some e => .ready (.error e) ⟨.error none⟩
    | none => .panicked

/-- Iterated polling: perform `n` polls, threading the next state, stopping
with `none` if the defensive fault fires along the way. -/
def pollIter (pollF : F → Poll (Except SE SR) × F)
    (respFrom : SR → R) (errFrom : SE → E) :
    Nat → ExecuteRequestFuture F E → Option (ExecuteRequestFuture F E)
  | 0, x => some x
  | n + 1, x =>
    match (ExecuteRequestFuture.poll pollF respFrom errFrom x).next? with
    | some y => pollIter pollF respFrom errFrom n y
    | none => none

/-- Whether the state is the in-flight variant. -/
def Inner.isFuture : Inner F E → Bool
  | .future _ => true
  | .error _ => false

/-! Concrete instantiations used to exercise the model: an inner executor
doubling the translated request as its future, a request with an empty body,
one always-succeeding and one always-failing translation, and an inner future
that resolves immediately. -/

/-- A concrete adapter whose inner executor returns `2 * n` as its future. -/
def svcW : HttpClientService (Nat → Nat) := ⟨fun n => n * 2⟩

/-- A concrete request with an empty body stream. -/
def reqW : Request (BodyStream Nat) :=
  ⟨"GET", "http://localhost/hello", [], fun _ => none⟩

/-- A translation that always succeeds with native request `7`. -/
def tryFromOkW : Request (BodyStream (BoxError Nat)) → Except Nat Nat :=
  fun _ => .ok 7

/-- A translation that always fails with error `3`. -/
def tryFromErrW : Request (BodyStream (BoxError Nat)) → Except Nat Nat :=
  fun _ => .error 3

/-- A concrete `crate::Error::from` for translation errors. -/
def convEW : Nat → Nat := fun e => e + 100

/-- A concrete inner-future poller resolving immediately with `n + 1`. -/
def pollFW : Nat → Poll (Except Nat Nat) × Nat :=
  fun n => (.ready (.ok (n + 1)), n)

/-- A concrete response conversion. -/
def respFromW : Nat → Nat := fun r => r + 1000

/-- A concrete `crate::Error::from` for inner-service errors. -/
def errFromW : Nat → Nat := fun e => e + 2000

/-- A concrete two-pull body stream: one data chunk, then a stream error. -/
def bodyW : BodyStream Nat :=
  fun i => if i = 0 then some (.ok [1, 2]) else if i = 1 then some (.error 5) else none

/-! Helper lemmas shared by the claim theorems. -/

/-- Polling the in-flight variant never faults and its next state is the
in-flight variant holding exactly the advanced inner future. -/
theorem poll_future_next (pollF : F → Poll (Except SE SR) × F)
    (respFrom : SR → R) (errFrom : SE → E) (f : F) :
    (ExecuteRequestFuture.poll pollF respFrom errFrom ⟨.future f⟩).next?
      = some ⟨.future (pollF f).2⟩ := by
  rcases hp : pollF f with ⟨p, f₂⟩
  rcases p with v | _
  · rcases v with r | e <;>
      simp [ExecuteRequestFuture.poll, hp, PollStep.next?]
  · simp [ExecuteRequestFuture.poll, hp, PollStep.next?]

/-- One poll step preserves the variant of the state. -/
theorem poll_step_variant (pollF : F → Poll (Except SE SR) × F)
    (respFrom : SR → R) (errFrom : SE → E)
    (x y : ExecuteRequestFuture F E)
    (h : (ExecuteRequestFuture.poll pollF respFrom errFrom x).next? = some y) :
    y.inner.isFuture = x.inner.isFuture := by
  rcases x with ⟨i⟩
  rcases i with f | o
  · rw [poll_future_next] at h
    cases h
    rfl
  · rcases o with _ | e
    · simp [ExecuteRequestFuture.poll, PollStep.next?] at h
    · simp [ExecuteRequestFuture.poll, PollStep.next?] at h
      rw [← h]
      rfl

/-- No poll step produces a next state holding an untaken stored error. -/
theorem poll_step_no_fresh_error (pollF : F → Poll (Except SE SR) × F)
    (respFrom : SR → R) (errFrom : SE → E)
    (x y : ExecuteRequestFuture F E) (e : E)
    (h : (ExecuteRequestFuture.poll pollF respFrom errFrom x).next? = some y) :
    y.inner ≠ .error (some e) := by
  rcases x with ⟨i⟩
  rcases i with f | o
  · rw [poll_future_next] at h
    cases h
    simp
  · rcases o with _ | e₂
    · simp [ExecuteRequestFuture.poll, PollStep.next?] at h
    · simp [ExecuteRequestFuture.poll, PollStep.next?] at h
      rw [← h]
      simp

/-- Iterated polling preserves the variant of the state. -/
theorem pollIter_variant (pollF : F → Poll (Except SE SR) × F)
    (respFrom : SR → R) (errFrom : SE → E) :
    ∀ (n : Nat) (x y : ExecuteRequestFuture F E),
      pollIter pollF respFrom errFrom n x = some y →
      y.inner.isFuture = x.inner.isFuture := by
  intro n
  induction n with
  | zero =>
    intro x y h
    simp [pollIter] at h
    rw [h]
  | succ n ih =>
    intro x y h
    unfold pollIter at h
    rcases hs : (ExecuteRequestFuture.poll pollF respFrom errFrom x).next? with _ | z
    · rw [hs] at h
      simp at h
    · rw [hs] at h
      simp at h
      calc y.inner.isFuture = z.inner.isFuture := ih z y h
        _ = x.inner.isFuture := poll_step_variant pollF respFrom errFrom x z hs

/-- Any state reached by iterated polling from the in-flight variant is again
the in-flight variant. -/
theorem pollIter_future (pollF : F → Poll (Except SE SR) × F)
    (respFrom : SR → R) (errFrom : SE → E)
    (n : Nat) (f : F) (y : ExecuteRequestFuture F E)
    (h : pollIter pollF respFrom errFrom n ⟨.future f⟩ = some y) :
    ∃ g, y = ⟨.future g⟩ := by
  have hv := pollIter_variant pollF respFrom errFrom n ⟨.future f⟩ y h
  rcases y with ⟨i⟩
  rcases i with g | o
  · exact ⟨g, rfl⟩
  · simp [Inner.isFuture] at hv

/-- If polling the in-flight variant resolves to an error, that error is the
inner service's error mapped through `crate::Error::from`. -/
theorem poll_future_error_char (pollF : F → Poll (Except SE SR) × F)
    (respFrom : SR → R) (errFrom : SE → E) (f : F) (err : E)
    (next : ExecuteRequestFuture F E)
    (h : ExecuteRequestFuture.poll pollF respFrom errFrom ⟨.future f⟩
          = .ready (.error err) next) :
    ∃ se, (pollF f).1 = .ready (.error se) ∧ err = errFrom se := by
  rcases hp : pollF f with ⟨p, f₂⟩
  rcases p with v | _
  · rcases v with se | r
    · refine ⟨se, rfl, ?_⟩
      simp [ExecuteRequestFuture.poll, hp] at h
      exact h.1.symm
    · simp [ExecuteRequestFuture.poll, hp] at h
  · simp [ExecuteRequestFuture.poll, hp] at h

/-- Iterated polling starting from the taken-error state reaches only the
taken-error state (any further poll faults). -/
theorem pollIter_error_none (pollF : F → Poll (Except SE SR) × F)
    (respFrom : SR → R) (errFrom : SE → E)
    (n : Nat) (y : ExecuteRequestFuture F E)
    (h : pollIter pollF respFrom errFrom n ⟨.error none⟩ = some y) :
    y = ⟨.error none⟩ := by
  cases n with
  | zero =>
    simp [pollIter] at h
    rw [h]
  | succ n =>
    simp [pollIter, ExecuteRequestFuture.poll, PollStep.next?] at h

/-! Claim theorems. -/

/-- C1: `call` always returns an `ExecuteRequestFuture` (its return type is
total, never a synchronous error): when `reqwest::Request::try_from` succeeds
the result holds the inner executor's future for the translated request, and
when it fails the result holds the stored translation error, converted into
the unified error type, to be delivered on poll. -/
theorem call_never_fails_synchronously (convE : RE → E)
    (tryFrom : Request (BodyStream (BoxError ε)) → Except RE NReq)
    (svc : HttpClientService (NReq → F)) (req : Request (BodyStream ε)) :
    (∀ nr, tryFrom (Request.map convertBody req) = .ok nr →
      (svc.call convE tryFrom req).1 = ⟨.future (svc.inner nr)⟩) ∧
    (∀ te, tryFrom (Request.map convertBody req) = .error te →
      (svc.call convE tryFrom req).1 = ⟨.error (some (convE te))⟩) := by
  constructor <;> intro x h <;>
    simp [HttpClientService.call, h, ExecuteRequestFuture.new]

/-- C1 witness: with the always-succeeding translation, the call's result
holds the inner executor's future for native request `7`, namely `14`. -/
theorem call_never_fails_synchronously_w :
    (svcW.call convEW tryFromOkW reqW).1 = ⟨.future 14⟩ :=
  (call_never_fails_synchronously convEW tryFromOkW svcW reqW).1 7 rfl

/-- C2: when translation fails, the inner executor is never invoked (the
invocation trace of the call is empty) and the returned future resolves to the
stored translation error on its first poll. -/
theorem translation_failure_skips_inner (convE : RE → E)
    (tryFrom : Request (BodyStream (BoxError ε)) → Except RE NReq)
    (svc : HttpClientService (NReq → F)) (req : Request (BodyStream ε))
    (pollF : F → Poll (Except SE SR) × F) (respFrom : SR → R) (errFrom : SE → E)
    (te : RE) (h : tryFrom (Request.map convertBody req) = .error te) :
    (svc.call convE tryFrom req).2 = [] ∧
    ExecuteRequestFuture.poll pollF respFrom errFrom (svc.call convE tryFrom req).1
      = .ready (.error (convE te)) ⟨.error none⟩ := by
  constructor <;>
    simp [HttpClientService.call, h, ExecuteRequestFuture.new,
      ExecuteRequestFuture.poll]

/-- C2 witness: with the always-failing translation, no inner invocation is
recorded and the first poll resolves to the converted translation error. -/
theorem translation_failure_skips_inner_w :
    (svcW.call convEW tryFromErrW reqW).2 = [] ∧
    ExecuteRequestFuture.poll pollFW respFromW errFromW
        (svcW.call convEW tryFromErrW reqW).1
      = .ready (.error 103) ⟨.error none⟩ :=
  translation_failure_skips_inner convEW tryFromErrW svcW reqW
    pollFW respFromW errFromW 3 rfl

/-- C3 counterexample: the claim "polling an Execution Result a second time
after it has resolved triggers the defensive fault" is false for the
in-flight variant.  With an inner future whose poll always reports ready, the
first poll of `⟨.future ()⟩` resolves, the next state is again `⟨.future ()⟩`,
and polling that next state returns a second ready value, not the fault:
the adapter only guarantees the fault for the stored-error variant. -/
theorem second_poll_fault_cex :
    ExecuteRequestFuture.poll (fun u => (.ready (.ok ()), u))
        (fun r : Unit => r) (fun e : Unit => e)
        (⟨.future ()⟩ : ExecuteRequestFuture Unit Unit)
      = .ready (.ok ()) ⟨.future ()⟩ ∧
    ExecuteRequestFuture.poll (fun u => (.ready (.ok ()), u))
        (fun r : Unit => r) (fun e : Unit => e)
        (⟨.future ()⟩ : ExecuteRequestFuture Unit Unit)
      ≠ .panicked := by
  constructor
  · rfl
  · decide

/-- C3 amended: in the failed-before-dispatch state the stored error is moved
out exactly once — the first poll resolves to it and leaves the taken state —
and a second poll of the taken state triggers the defensive
`expect("Polled after ready")` fault; in the in-flight state the adapter
itself never raises the fault, every poll being delegated to the inner
future. -/
theorem stored_error_taken_once (pollF : F → Poll (Except SE SR) × F)
    (respFrom : SR → R) (errFrom : SE → E) :
    (∀ e : E, ExecuteRequestFuture.poll pollF respFrom errFrom ⟨.error (some e)⟩
        = .ready (.error e) ⟨.error none⟩) ∧
    (ExecuteRequestFuture.poll pollF respFrom errFrom
        (⟨.error none⟩ : ExecuteRequestFuture F E) = .panicked) ∧
    (∀ f : F,
      ExecuteRequestFuture.poll pollF respFrom errFrom ⟨.future f⟩ ≠ .panicked) := by
  refine ⟨fun e => rfl, rfl, fun f => ?_⟩
  rcases hp : pollF f with ⟨p, f₂⟩
  rcases p with v | _
  · rcases v with se | r <;> simp [ExecuteRequestFuture.poll, hp]
  · simp [ExecuteRequestFuture.poll, hp]

/-- C4: when translation succeeds the inner executor is invoked exactly once,
synchronously inside `call`, with the translated native request (the
invocation trace is the one-element list holding that request); and on any
call the trace has length at most one. -/
theorem inner_invoked_once_on_success (convE : RE → E)
    (tryFrom : Request (BodyStream (BoxError ε)) → Except RE NReq)
    (svc : HttpClientService (NReq → F)) (req : Request (BodyStream ε)) :
    (∀ nr, tryFrom (Request.map convertBody req) = .ok nr →
      (svc.call convE tryFrom req).2 = [nr] ∧
      (svc.call convE tryFrom req).1 = ⟨.future (svc.inner nr)⟩) ∧
    (svc.call convE tryFrom req).2.length ≤ 1 := by
  constructor
  · intro nr h
    constructor <;> simp [HttpClientService.call, h, ExecuteRequestFuture.new]
  · unfold HttpClientService.call
    rcases htf : tryFrom (Request.map convertBody req) with te | nr <;>
      simp [htf]

/-- C4 witness: with the always-succeeding translation, the invocation trace
is exactly `[7]`. -/
theorem inner_invoked_once_on_success_w :
    (svcW.call convEW tryFromOkW reqW).2 = [7] ∧
    (svcW.call convEW tryFromOkW reqW).1 = ⟨.future 14⟩ :=
  (inner_invoked_once_on_success convEW tryFromOkW svcW reqW).1 7 rfl

/-- C5: polling the in-flight variant returns pending exactly when the inner
future's poll is pending (keeping the in-flight state with the advanced inner
future); when the inner future completes, its success value is translated
through the response conversion and its failure value through the unified
error conversion. -/
theorem inflight_poll_mirrors_inner (pollF : F → Poll (Except SE SR) × F)
    (respFrom : SR → R) (errFrom : SE → E) (f : F) :
    (∀ f₂, pollF f = (.pending, f₂) →
      ExecuteRequestFuture.poll pollF respFrom errFrom ⟨.future f⟩
        = .pending ⟨.future f₂⟩) ∧
    (∀ r f₂, pollF f = (.ready (.ok r), f₂) →
      ExecuteRequestFuture.poll pollF respFrom errFrom ⟨.future f⟩
        = .ready (.ok (respFrom r)) ⟨.future f₂⟩) ∧
    (∀ se f₂, pollF f = (.ready (.error se), f₂) →
      ExecuteRequestFuture.poll pollF respFrom errFrom ⟨.future f⟩
        = .ready (.error (errFrom se)) ⟨.future f₂⟩) ∧
    ((∃ n, ExecuteRequestFuture.poll pollF respFrom errFrom ⟨.future f⟩
        = .pending n) ↔ (pollF f).1 = .pending) := by
  refine ⟨?_, ?_, ?_, ?_⟩
  · intro f₂ h
    simp [ExecuteRequestFuture.poll, h]
  · intro r f₂ h
    simp [ExecuteRequestFuture.poll, h]
  · intro se f₂ h
    simp [ExecuteRequestFuture.poll, h]
  · rcases hp : pollF f with ⟨p, f₂⟩
    rcases p with v | _
    · rcases v with se | r <;> simp [ExecuteRequestFuture.poll, hp]
    · simp [ExecuteRequestFuture.poll, hp]

/-- C5 witness: with the immediately-resolving inner poller, polling the
in-flight state at inner future `5` yields the translated response `1006`. -/
theorem inflight_poll_mirrors_inner_w :
    ExecuteRequestFuture.poll pollFW respFromW errFromW ⟨.future 5⟩
      = .ready (.ok 1006) ⟨.future 5⟩ :=
  (inflight_poll_mirrors_inner pollFW respFromW errFromW 5).2.1 6 5 rfl

/-- C6: the readiness check always returns ready-with-success immediately,
for every adapter state, independent of the inner service and of any
in-flight calls. -/
theorem poll_ready_always_ready (svc : HttpClientService S) :
    (HttpClientService.poll_ready svc : Poll (Except E Unit))
      = .ready (.ok ()) := rfl

/-- C7: every error a caller can observe from a future produced by `call` —
at any poll depth — is the unified error type obtained either from the
translation error via its conversion, or from an inner-service error via its
conversion; no other error channel exists (and `call` itself is total,
returning a future rather than a synchronous error). -/
theorem errors_unified (convE : RE → E)
    (tryFrom : Request (BodyStream (BoxError ε)) → Except RE NReq)
    (svc : HttpClientService (NReq → F)) (req : Request (BodyStream ε))
    (pollF : F → Poll (Except SE SR) × F) (respFrom : SR → R) (errFrom : SE → E)
    (n : Nat) (x next : ExecuteRequestFuture F E) (err : E)
    (hreach : pollIter pollF respFrom errFrom n (svc.call convE tryFrom req).1
      = some x)
    (hpoll : ExecuteRequestFuture.poll pollF respFrom errFrom x
      = .ready (.error err) next) :
    (∃ te, tryFrom (Request.map convertBody req) = .error te ∧ err = convE te) ∨
    (∃ se, err = errFrom se) := by
  rcases htf : tryFrom (Request.map convertBody req) with te | nr
  · left
    refine ⟨te, rfl, ?_⟩
    have hcall : (svc.call convE tryFrom req).1 = ⟨.error (some (convE te))⟩ := by
      simp [HttpClientService.call, htf, ExecuteRequestFuture.new]
    rw [hcall] at hreach
    cases n with
    | zero =>
      simp [pollIter] at hreach
      rw [← hreach] at hpoll
      simp [ExecuteRequestFuture.poll] at hpoll
      exact hpoll.1.symm
    | succ n =>
      simp [pollIter, ExecuteRequestFuture.poll, PollStep.next?] at hreach
      have hx := pollIter_error_none pollF respFrom errFrom n x hreach
      rw [hx] at hpoll
      simp [ExecuteRequestFuture.poll] at hpoll
  · right
    have hcall : (svc.call convE tryFrom req).1 = ⟨.future (svc.inner nr)⟩ := by
      simp [HttpClientService.call, htf, ExecuteRequestFuture.new]
    rw [hcall] at hreach
    rcases pollIter_future pollF respFrom errFrom n (svc.inner nr) x hreach
      with ⟨g, hg⟩
    rw [hg] at hpoll
    rcases poll_future_error_char pollF respFrom errFrom g err next hpoll
      with ⟨se, _, he⟩
    exact ⟨se, he⟩

/-- C7 witness: for the always-failing translation, the error observed on the
first poll is the converted translation error `103`. -/
theorem errors_unified_w :
    (∃ te, tryFromErrW (Request.map convertBody reqW) = .error te ∧
      (103 : Nat) = convEW te) ∨
    (∃ se, (103 : Nat) = errFromW se) :=
  errors_unified convEW tryFromErrW svcW reqW pollFW respFromW errFromW
    0 ⟨.error (some 103)⟩ ⟨.error none⟩ 103 rfl rfl

/-- C8: the internal state is exactly one of the two variants (in-flight
future or stored error); the variant is fixed at construction by `new`
(in-flight on translation success, stored-error on failure); every poll step
preserves the variant; and no poll step ever produces a state holding an
untaken stored error, so a prior state is never re-entered — resolution is
terminal. -/
theorem execution_state_shape (convE : RE → E)
    (pollF : F → Poll (Except SE SR) × F) (respFrom : SR → R)
    (errFrom : SE → E) :
    (∀ i : Inner F E, (∃ f, i = .future f) ∨ (∃ o, i = .error o)) ∧
    (∀ fut : F, ExecuteRequestFuture.new convE (.ok fut)
        = (⟨.future fut⟩ : ExecuteRequestFuture F E)) ∧
    (∀ re : RE, ExecuteRequestFuture.new convE (.error re)
        = (⟨.error (some (convE re))⟩ : ExecuteRequestFuture F E)) ∧
    (∀ x y : ExecuteRequestFuture F E,
      (ExecuteRequestFuture.poll pollF respFrom errFrom x).next? = some y →
      y.inner.isFuture = x.inner.isFuture) ∧
    (∀ x y : ExecuteRequestFuture F E, ∀ e : E,
      (ExecuteRequestFuture.poll pollF respFrom errFrom x).next? = some y →
      y.inner ≠ .error (some e)) := by
  refine ⟨?_, fun fut => rfl, fun re => rfl, ?_, ?_⟩
  · intro i
    rcases i with f | o
    · exact .inl ⟨f, rfl⟩
    · exact .inr ⟨o, rfl⟩
  · exact poll_step_variant pollF respFrom errFrom
  · intro x y e h
    exact poll_step_no_fresh_error pollF respFrom errFrom x y e h

/-- C8 witness: polling the failed-before-dispatch state with stored error
`103` moves to the taken state, which is still the error variant and no
longer holds an error. -/
theorem execution_state_shape_w :
    (⟨.error none⟩ : ExecuteRequestFuture Nat Nat).inner.isFuture
      = (⟨.error (some 103)⟩ : ExecuteRequestFuture Nat Nat).inner.isFuture ∧
    (⟨.error none⟩ : ExecuteRequestFuture Nat Nat).inner ≠ .error (some 103) :=
  ⟨(execution_state_shape convEW pollFW respFromW errFromW).2.2.2.1
      ⟨.error (some 103)⟩ ⟨.error none⟩ rfl,
    (execution_state_shape convEW pollFW respFromW errFromW).2.2.2.2
      ⟨.error (some 103)⟩ ⟨.error none⟩ 103 rfl⟩

/-- C9: the body conversion of `call` is pointwise — the i-th pull of the
converted stream is exactly the i-th pull of the original with only its error
mapped, so no byte is pulled during translation and the conversion itself is
total (it never fails) — data chunks are preserved byte-for-byte, and
stream errors are propagated boxed (type-erased) in-stream. -/
theorem body_conversion_faithful (b : BodyStream ε) (i : Nat) :
    (convertBody b i = (b i).map (mapPullError BoxError.box)) ∧
    (∀ c : Chunk, b i = some (.ok c) → convertBody b i = some (.ok c)) ∧
    (∀ e : ε, b i = some (.error e) →
      convertBody b i = some (.error (BoxError.box e))) := by
  refine ⟨rfl, ?_, ?_⟩ <;> intro x h <;> simp [convertBody, h, mapPullError]

/-- C9 witness: on the concrete two-pull body, the data chunk `[1, 2]` is
preserved unchanged and the stream error `5` comes out boxed. -/
theorem body_conversion_faithful_w :
    convertBody bodyW 0 = some (.ok [1, 2]) ∧
    convertBody bodyW 1 = some (.error (BoxError.box 5)) :=
  ⟨(body_conversion_faithful bodyW 0).2.1 [1, 2] rfl,
    (body_conversion_faithful bodyW 1).2.2 5 rfl⟩

/-- C10: the variant chosen at construction is never changed by any sequence
of polls (iterated polling preserves it); in the in-flight variant the
adapter adds no mutation of its own — the next state holds exactly the
advanced inner future returned by the inner poll — and in the error variant
the only mutation is taking the stored error, from present to taken. -/
theorem poll_mutates_only_stored_error (pollF : F → Poll (Except SE SR) × F)
    (respFrom : SR → R) (errFrom : SE → E) :
    (∀ f : F, (ExecuteRequestFuture.poll pollF respFrom errFrom
        ⟨.future f⟩).next? = some ⟨.future (pollF f).2⟩) ∧
    (∀ e : E, (ExecuteRequestFuture.poll pollF respFrom errFrom
        (⟨.error (some e)⟩ : ExecuteRequestFuture F E)).next?
        = some ⟨.error none⟩) ∧
    (∀ (n : Nat) (x y : ExecuteRequestFuture F E),
      pollIter pollF respFrom errFrom n x = some y →
      y.inner.isFuture = x.inner.isFuture) := by
  refine ⟨?_, fun e => rfl, ?_⟩
  · exact poll_future_next pollF respFrom errFrom
  · exact pollIter_variant pollF respFrom errFrom

/-- C10 witness: three iterated polls of the in-flight state at inner future
`5` leave it in the in-flight variant. -/
theorem poll_mutates_only_stored_error_w :
    (⟨.future 5⟩ : ExecuteRequestFuture Nat Nat).inner.isFuture
      = (⟨.future 5⟩ : ExecuteRequestFuture Nat Nat).inner.isFuture :=
  (poll_mutates_only_stored_error pollFW respFromW errFromW).2.2
    3 ⟨.future 5⟩ ⟨.future 5⟩ rfl

end TowerReqwest
